import Mathlib

/-!
Shallow embedding of the coordination core of the Shortlist repository
(node state machine, lease utilities, healer, governor), translated from
`src/node.py`, `src/utils/lease.py`, `src/utils/roles.py`,
`src/renderers/healer/main.py` and `src/renderers/governor/main.py`.

Timestamps are modelled as whole seconds since the epoch (`Int`); all the
Python code compares `datetime` values only through differences and
orderings, so this is faithful.  JSON timestamp fields are modelled by
`TField`, distinguishing an absent key, an unparseable string (where the
Python `datetime.fromisoformat` / `dateutil` parse raises), and a parsed
value.  Metric values and thresholds are modelled as rationals.
-/

namespace Shortlist

/-- Model of a timestamp-valued JSON field as the Python code sees it:
the key may be absent from the record, present but not parseable as a
timestamp, or parseable to a time `t` (seconds since epoch). -/
inductive TField where
  | missing : TField
  | invalid : TField
  | value : Int → TField
deriving DecidableEq

/-- Model of a task-assignment record in `assignments.json`.  Fields the
Python code reads with `.get` are `Option`s / `TField`s; a record written
by old node versions carries `task_heartbeat`, the lease module writes
`lease_expires_at`. -/
structure AssignmentRec where
  node_id : Option String := none
  claimed_at : TField := TField.missing
  task_heartbeat : TField := TField.missing
  lease_expires_at : TField := TField.missing
  status : Option String := none
  region : Option String := none
deriving DecidableEq

/-- Association-list lookup, modelling Python dict indexing by key
(dicts in the coordination files have unique keys). -/
def alookup {α : Type} (m : List (String × α)) (k : String) : Option α :=
  match m with
  | [] => none
  | (k₁, v) :: rest => if k₁ = k then some v else alookup rest k

/-! Embedding of `src/utils/lease.py`. -/

/-- Embeds `LeaseConfig.MIN_LEASE_DURATION` (1 minute), in seconds. -/
def minLeaseDuration : Int := 60

/-- Embeds `LeaseConfig.MAX_LEASE_DURATION` (30 minutes), in seconds. -/
def maxLeaseDuration : Int := 1800

/-- Embeds `RENEWAL_THRESHOLD` (1 minute), in seconds. -/
def renewalThreshold : Int := 60

/-- Embeds `create_lease` from `src/utils/lease.py`: the returned expiry
timestamp is `datetime.now(utc) + duration`, with the current time made
an explicit argument. -/
def create_lease (now duration : Int) : Int := now + duration

/-- Model of the `lease_expires_at` argument of `is_lease_expired`
(`Optional[str]` in Python): `None`, the empty string, a string that
`datetime.fromisoformat` rejects, or a string parsing to time `t`. -/
inductive LeaseArg where
  | noneArg : LeaseArg
  | emptyStr : LeaseArg
  | invalidStr : LeaseArg
  | valueStr : Int → LeaseArg
deriving DecidableEq

/-- Embeds `is_lease_expired` from `src/utils/lease.py`: falsy input
(`None` or empty string) returns `True`; an unparseable string hits the
`except (ValueError, TypeError)` branch and returns `True`; otherwise the
result is `now + grace_period >= expiration`. -/
def is_lease_expired (now : Int) (leaseExpiresAt : LeaseArg) (gracePeriod : Int) : Bool :=
  match leaseExpiresAt with
  | LeaseArg.noneArg => true
  | LeaseArg.emptyStr => true
  | LeaseArg.invalidStr => true
  | LeaseArg.valueStr t => decide (now + gracePeriod ≥ t)

/-- Embeds `extend_lease` from `src/utils/lease.py`: copies the record,
sets `lease_expires_at := create_lease(duration)` and deletes the old
`task_heartbeat` key if present. -/
def extend_lease (task : AssignmentRec) (now duration : Int) : AssignmentRec :=
  { task with
    lease_expires_at := TField.value (create_lease now duration),
    task_heartbeat := TField.missing }

/-! Embedding of the schedule-task model and of `src/utils/roles.py`. -/

/-- Model of a task declaration in `schedule.json` as read by
`src/node.py`: `task["id"]` is indexed directly (so modelled as
mandatory), the other fields are read with `.get`. -/
structure Task where
  id : String
  ty : Option String := none
  priority : Option Int := none
  required_role : Option String := none
  required_region : Option String := none
deriving DecidableEq

/-- Embeds `NodeRoles.can_handle_task` from `src/utils/roles.py`: a falsy
`required_role` (absent or empty) means any node can handle the task;
otherwise the lower-cased role must be in the node's role set. -/
def can_handle_task (roles : List String) (task : Task) : Bool :=
  match task.required_role with
  | none => true
  | some r => if r = "" then true else roles.contains r.toLower

/-! Embedding of the Node state machine in `src/node.py`. -/

/-- Node states from `src/node.py` (`NodeState`). -/
inductive NodeState where
  | IDLE : NodeState
  | ATTEMPT_CLAIM : NodeState
  | ACTIVE : NodeState
deriving DecidableEq

/-- Embeds `TASK_EXPIRATION = timedelta(seconds=90)` from `src/node.py`. -/
def taskExpiration : Int := 90

/-- Effective sort key used by `run_idle_state`:
`x.get("priority", 999)`. -/
def effPriority (t : Task) : Int := t.priority.getD 999

/-- Ordering relation on tasks induced by the sort key of
`run_idle_state`. -/
def taskLE (a b : Task) : Prop := effPriority a ≤ effPriority b

instance : DecidableRel taskLE := fun a b => Int.decLe (effPriority a) (effPriority b)

instance : IsTotal Task taskLE := ⟨fun a b => Int.le_total (effPriority a) (effPriority b)⟩

instance : IsTrans Task taskLE := ⟨fun _ _ _ => Int.le_trans⟩

/-- Embeds `sorted(schedule.get("tasks", []), key=lambda x: x.get("priority", 999))`
from `run_idle_state`.  Python's `sorted` is a stable ascending sort by
key; `List.insertionSort` with the key ordering is exactly such a stable
sort. -/
def sortedTasks (ts : List Task) : List Task := List.insertionSort taskLE ts

/-- Embeds the candidate-scanning loop of `run_idle_state` over the
priority-sorted task list: an unassigned task is taken immediately; an
assigned task is taken iff `now - fromisoformat(assignment["task_heartbeat"])`
exceeds `TASK_EXPIRATION`; a missing or unparseable `task_heartbeat` on an
assigned task raises (KeyError / ValueError), aborting the pass. -/
def findCandidate (now : Int) (asg : List (String × AssignmentRec)) :
    List Task → Except Unit (Option Task)
  | [] => Except.ok none
  | t :: rest =>
    match alookup asg t.id with
    | none => Except.ok (some t)
    | some a =>
      match a.task_heartbeat with
      | TField.value h =>
        if now - h > taskExpiration then Except.ok (some t)
        else findCandidate now asg rest
      | _ => Except.error ()

/-- Outcome of one IDLE pass of the Node: claim a candidate (set
`current_task`, transition to `ATTEMPT_CLAIM`), sleep (no candidate), or
an escaped exception (caught in `run()`, which resets to `IDLE`). -/
inductive IdleOutcome where
  | claimAttempt : Task → IdleOutcome
  | sleepIdle : IdleOutcome
  | errored : IdleOutcome
deriving DecidableEq

/-- Embeds the candidate selection and transition of `run_idle_state`:
sort the schedule by priority, scan for the first free or orphaned task,
and transition to `ATTEMPT_CLAIM` on a match. -/
def runIdleSelect (now : Int) (asg : List (String × AssignmentRec))
    (tasks : List Task) : IdleOutcome :=
  match findCandidate now asg (sortedTasks tasks) with
  | Except.error _ => IdleOutcome.errored
  | Except.ok (some t) => IdleOutcome.claimAttempt t
  | Except.ok none => IdleOutcome.sleepIdle

/-- Next node state after an IDLE pass (`run_idle_state` sets
`ATTEMPT_CLAIM` iff a candidate was found; an exception is caught in
`run()` which sets `IDLE`). -/
def idleNextState (o : IdleOutcome) : NodeState :=
  match o with
  | IdleOutcome.claimAttempt _ => NodeState.ATTEMPT_CLAIM
  | _ => NodeState.IDLE

/-! Embedding of `commit_and_push` and `_attempt_claim_legacy`. -/

/-- Character-list prefix test (used to model Python `in` on strings). -/
def listPrefixOf : List Char → List Char → Bool
  | [], _ => true
  | _ :: _, [] => false
  | a :: as, b :: bs => (a == b) && listPrefixOf as bs

/-- Character-list substring test. -/
def listSubstr (needle : List Char) : List Char → Bool
  | [] => needle.isEmpty
  | c :: rest => listPrefixOf needle (c :: rest) || listSubstr needle rest

/-- Embeds the Python expression `file in status_result` (substring
membership). -/
def strIn (needle hay : String) : Bool := listSubstr needle.toList hay.toList

/-- Path of the assignments document, as in `src/node.py`. -/
def assignmentsFile : String := "assignments.json"

/-- Embeds `commit_and_push(files, message)` from `src/node.py`: after
`git add`, the files are committed and pushed iff some file name occurs
in the `git status --porcelain` output; otherwise nothing is committed
and the function returns `False`.  The porcelain output is an input from
the environment. -/
def commit_and_push (files : List String) (statusResult : String) : Bool :=
  if files.any (fun f => strIn f statusResult) then true else false

/-- Embeds the assignment record built by `_attempt_claim_legacy`
(`src/node.py`): `node_id`, `claimed_at = now`, `task_heartbeat = now`,
`status = "claiming"`, and `region` when a geographic manager is
available. -/
def buildClaimRecord (nodeId : String) (now : Int) (geoRegion : Option String) :
    AssignmentRec :=
  { node_id := some nodeId,
    claimed_at := TField.value now,
    task_heartbeat := TField.value now,
    lease_expires_at := TField.missing,
    status := some "claiming",
    region := geoRegion }

/-- Dict update `assignments[task_id] = record`: replace the entry of an
existing key in place, otherwise append. -/
def ainsert {α : Type} (m : List (String × α)) (k : String) (v : α) : List (String × α) :=
  match m with
  | [] => [(k, v)]
  | (k₁, v₁) :: rest => if k₁ = k then (k, v) :: rest else (k₁, v₁) :: ainsert rest k v

/-- Result of `_attempt_claim_legacy`: an escaped exception, or a success
flag together with the assignments document as written locally. -/
inductive ClaimResult where
  | errored : ClaimResult
  | finished : Bool → List (String × AssignmentRec) → ClaimResult
deriving DecidableEq

/-- Heartbeat used by the recheck in `_attempt_claim_legacy`:
`assignment.get("task_heartbeat", "1970-01-01T00:00:00+00:00")` parsed by
`fromisoformat` — a missing key defaults to the epoch (time 0), an
unparseable value raises. -/
def claimRecheckHeartbeat (a : AssignmentRec) : Except Unit Int :=
  match a.task_heartbeat with
  | TField.missing => Except.ok 0
  | TField.invalid => Except.error ()
  | TField.value h => Except.ok h

/-- Shared tail of `_attempt_claim_legacy`: build the claim record, write
it into the assignments document and commit+push; the returned flag is
the `commit_and_push` result. -/
def claimWrite (now : Int) (nodeId : String) (geoRegion : Option String)
    (task : Task) (asg : List (String × AssignmentRec)) (statusResult : String) :
    ClaimResult :=
  ClaimResult.finished (commit_and_push [assignmentsFile] statusResult)
    (ainsert asg task.id (buildClaimRecord nodeId now geoRegion))

/-- Embeds `_attempt_claim_legacy` from `src/node.py` (after jitter and
pull): if the task is currently assigned and its heartbeat is younger
than `TASK_EXPIRATION`, fail without writing; otherwise write the claim
record and report the `commit_and_push` outcome. -/
def attempt_claim_legacy (now : Int) (nodeId : String) (geoRegion : Option String)
    (task : Task) (asg : List (String × AssignmentRec)) (statusResult : String) :
    ClaimResult :=
  match alookup asg task.id with
  | some a =>
    match claimRecheckHeartbeat a with
    | Except.error _ => ClaimResult.errored
    | Except.ok h =>
      if now - h < taskExpiration then ClaimResult.finished false asg
      else claimWrite now nodeId geoRegion task asg statusResult
  | none => claimWrite now nodeId geoRegion task asg statusResult

/-- Embeds the transition of `run_attempt_claim_state`: success moves the
node to `ACTIVE`, failure back to `IDLE`; an escaped exception is caught
in `run()`, which also resets to `IDLE`. -/
def run_attempt_claim_state (r : ClaimResult) : NodeState :=
  match r with
  | ClaimResult.errored => NodeState.IDLE
  | ClaimResult.finished success _ =>
    if success then NodeState.ACTIVE else NodeState.IDLE

/-! Embedding of `src/renderers/healer/main.py`. -/

/-- Model of a roster row as read by the healer and governor: `id` is
mandatory in the schema, `last_seen` may be absent or unparseable. -/
structure RosterNode where
  id : String
  last_seen : TField := TField.missing
deriving DecidableEq

/-- Node-liveness window used by `get_alive_node_ids` (`< 300` seconds,
i.e. 5 minutes). -/
def healerAliveWindow : Int := 300

/-- Staleness window used by `detect_stale_assignments` (`> 600` seconds,
i.e. 10 minutes). -/
def healerStaleWindow : Int := 600

/-- Embeds `get_alive_node_ids`: a node is counted alive iff its
`last_seen` parses and `now − last_seen < 300` seconds; a parse failure
is caught per node and the node is skipped. -/
def get_alive_node_ids (now : Int) (roster : List RosterNode) : List String :=
  roster.filterMap fun n =>
    match n.last_seen with
    | TField.value t => if now - t < healerAliveWindow then some n.id else none
    | _ => none

/-- Embeds `detect_zombie_assignments`: collects the task ids of
assignments whose `node_id` is truthy (present and nonempty) and not in
the alive set. -/
def detect_zombie_assignments (asg : List (String × AssignmentRec))
    (aliveIds : List String) : List String :=
  asg.filterMap fun p =>
    match p.2.node_id with
    | none => none
    | some nid =>
      if nid = "" then none
      else if aliveIds.contains nid then none else some p.1

/-- Embeds `detect_stale_assignments`: collects the task ids of
assignments whose `task_heartbeat` is present, parses, and is older than
600 seconds; missing heartbeats are skipped (falsy), parse errors are
caught per task and skipped. -/
def detect_stale_assignments (now : Int) (asg : List (String × AssignmentRec)) :
    List String :=
  asg.filterMap fun p =>
    match p.2.task_heartbeat with
    | TField.value h => if now - h > healerStaleWindow then some p.1 else none
    | _ => none

/-- Embeds `heal_assignments`: deletes from the assignments dict every
entry whose task id occurs in the zombie or stale list, and reports
whether any deletion happened. -/
def heal_assignments (asg : List (String × AssignmentRec))
    (zombieIds staleIds : List String) : List (String × AssignmentRec) × Bool :=
  (asg.filter fun p => !(zombieIds.contains p.1 || staleIds.contains p.1),
   asg.any fun p => zombieIds.contains p.1 || staleIds.contains p.1)

/-- Embeds one healer scan (`main` loop body after a successful pull and
read): compute the alive set, detect zombies and stale assignments, and
heal. -/
def healerCycle (now : Int) (roster : List RosterNode)
    (asg : List (String × AssignmentRec)) : List (String × AssignmentRec) × Bool :=
  let aliveIds := get_alive_node_ids now roster
  heal_assignments asg (detect_zombie_assignments asg aliveIds)
    (detect_stale_assignments now asg)

/-- Purge condition actually used by the healer for a single record:
zombie (truthy `node_id` not in the alive set). -/
def isZombieRec (now : Int) (roster : List RosterNode) (a : AssignmentRec) : Bool :=
  match a.node_id with
  | none => false
  | some nid =>
    if nid = "" then false else !(get_alive_node_ids now roster).contains nid

/-- Purge condition actually used by the healer for a single record:
stale (parseable `task_heartbeat` older than 600 seconds). -/
def isStaleRec (now : Int) (a : AssignmentRec) : Bool :=
  match a.task_heartbeat with
  | TField.value h => decide (now - h > healerStaleWindow)
  | _ => false

/-! Embedding of `src/renderers/governor/main.py`.

Indentation in this source file is inconsistent (stray extra indentation
around inserted logging calls and the quorum `continue`); the embedding
follows the one consistent control flow the surrounding code and the
per-function docstrings describe: quorum gate first, then condition
evaluation, then action application, then the write-and-commit check. -/

/-- Roster row as read by `evaluate_condition_swarm_metric_agg`, which
iterates `roster["nodes"]` as a dict of node id to node data carrying
`last_seen` and a `metrics` dict. -/
structure GNode where
  last_seen : TField := TField.missing
  metrics : List (String × ℚ) := []
deriving DecidableEq

/-- Alive-window of the governor, `SWARM_METRIC_AGG_TIMEOUT_MINUTES = 15`,
in seconds. -/
def governorAliveWindow : Int := 900

/-- Quorum sub-document of a trigger; absent keys fall back to the
defaults (`min_nodes_alive = 1`, `min_percent_alive = 0`). -/
structure GQuorum where
  min_nodes_alive : Option Int := none
  min_percent_alive : Option ℚ := none
deriving DecidableEq

/-- Embeds `check_quorum`: no (or empty, hence falsy) quorum dict means
quorum is met; otherwise both the alive-node count and the alive
percentage must reach their bounds. -/
def check_quorum (quorum : Option GQuorum) (totalNodes aliveNodes : Nat) : Bool :=
  match quorum with
  | none => true
  | some q =>
    let minNodes := q.min_nodes_alive.getD 1
    let minPercent := q.min_percent_alive.getD 0
    let alivePercent : ℚ := if totalNodes > 0 then (aliveNodes : ℚ) / (totalNodes : ℚ) * 100 else 0
    decide ((aliveNodes : Int) ≥ minNodes) && decide (alivePercent ≥ minPercent)

/-- Embeds `calculate_swarm_health`: total roster size and the number of
rows whose `last_seen` is present, parses, and is within 15 minutes; an
unparseable `last_seen` raises out of the cycle (no try around
`date_parse` here). -/
def calculate_swarm_health (now : Int) (roster : List RosterNode) :
    Except Unit (Nat × Nat) :=
  match roster with
  | [] => Except.ok (0, 0)
  | n :: rest =>
    match calculate_swarm_health now rest with
    | Except.error e => Except.error e
    | Except.ok (tot, alive) =>
      match n.last_seen with
      | TField.missing => Except.ok (tot + 1, alive)
      | TField.invalid => Except.error ()
      | TField.value t =>
        if now - t < governorAliveWindow then Except.ok (tot + 1, alive + 1)
        else Except.ok (tot + 1, alive)

/-- Condition sub-document of a trigger, covering both condition types. -/
structure GCondition where
  condType : Option String := none
  start_utc : TField := TField.missing
  end_utc : TField := TField.missing
  metric : Option String := none
  aggregation : Option String := none
  threshold : Option ℚ := none
  operator : Option String := none
deriving DecidableEq

/-- Truthiness of an optional string (Python: `None` and `""` are falsy). -/
def truthyStr (s : Option String) : Bool :=
  match s with
  | none => false
  | some v => decide (v ≠ "")

/-- Truthiness of an optional number (Python: `None` and `0` are falsy). -/
def truthyQ (q : Option ℚ) : Bool :=
  match q with
  | none => false
  | some v => decide (v ≠ 0)

/-- End-bound check of `evaluate_condition_time_based`. -/
def evalTimeEnd (now : Int) (c : GCondition) : Option Bool :=
  match c.end_utc with
  | TField.invalid => none
  | TField.missing => some true
  | TField.value e => if now > e then some false else some true

/-- Embeds `evaluate_condition_time_based`: falsy bounds are skipped, an
unparseable bound raises (`none`), and the window test is
`start ≤ now ≤ end` on the declared bounds. -/
def evaluate_condition_time_based (now : Int) (c : GCondition) : Option Bool :=
  match c.start_utc with
  | TField.invalid => none
  | TField.missing => evalTimeEnd now c
  | TField.value s => if now < s then some false else evalTimeEnd now c

/-- Comparison dispatch shared by `operator_to_symbol` plus `eval` and by
the final `gt`/`lt`/`eq` chain of
`evaluate_condition_swarm_metric_agg`; other operators have no symbol. -/
def opCompare (op : String) : Option (ℚ → ℚ → Bool) :=
  if op = "gt" then some fun x y => decide (x > y)
  else if op = "lt" then some fun x y => decide (x < y)
  else if op = "eq" then some fun x y => decide (x = y)
  else none

/-- Metric values of alive roster rows, in roster order, as collected by
the loop in `evaluate_condition_swarm_metric_agg`: falsy `last_seen` is
skipped, an unparseable one raises, and rows without the metric are
skipped. -/
def aliveMetricsList (now : Int) (metricName : String) :
    List (String × GNode) → Except Unit (List ℚ)
  | [] => Except.ok []
  | (_, nd) :: rest =>
    match nd.last_seen with
    | TField.missing => aliveMetricsList now metricName rest
    | TField.invalid => Except.error ()
    | TField.value t =>
      match aliveMetricsList now metricName rest with
      | Except.error e => Except.error e
      | Except.ok l =>
        if now - t < governorAliveWindow then
          match alookup nd.metrics metricName with
          | some v => Except.ok (v :: l)
          | none => Except.ok l
        else Except.ok l

/-- Embeds `evaluate_condition_swarm_metric_agg`: incomplete (falsy)
fields give `False`; no alive node carrying the metric gives `False`;
the aggregators `average`, `sum` and `count_above_threshold` are
computed (the count branch evaluates `val <sym> threshold`, raising a
`SyntaxError` when the operator has no symbol); any other aggregator
leaves the aggregate `None`, yielding `False`; finally the aggregate is
compared with `gt`/`lt`/`eq`, any other operator yielding `False`.
`none` models an escaped exception. -/
def evaluate_condition_swarm_metric_agg (now : Int) (cond : GCondition)
    (nodes : List (String × GNode)) : Option Bool :=
  if !(truthyStr cond.metric && truthyStr cond.aggregation &&
       truthyQ cond.threshold && truthyStr cond.operator) then some false
  else
    let metricName := cond.metric.getD ""
    let agg := cond.aggregation.getD ""
    let thr := cond.threshold.getD 0
    let op := cond.operator.getD ""
    match aliveMetricsList now metricName nodes with
    | Except.error _ => none
    | Except.ok ms =>
      if ms.isEmpty then some false
      else
        let aggVal : Option (Option ℚ) :=
          if agg = "average" then some (some (ms.sum / (ms.length : ℚ)))
          else if agg = "sum" then some (some ms.sum)
          else if agg = "count_above_threshold" then
            match opCompare op with
            | some cmp => some (some ((ms.countP fun v => cmp v thr : ℕ) : ℚ))
            | none => none
          else some none
        match aggVal with
        | none => none
        | some none => some false
        | some (some a) =>
          match opCompare op with
          | some cmp => some (cmp a thr)
          | none => some false

/-- Trigger action document. -/
structure GAction where
  actype : Option String := none
  task_id : Option String := none
  task_type : Option String := none
  priority : Option Int := none
  swap_with_task_id : Option String := none
deriving DecidableEq

/-- Schedule task as handled by the governor (all fields via `.get`). -/
structure STask where
  id : Option String := none
  ty : Option String := none
  priority : Option Int := none
deriving DecidableEq

/-- Index of the last element satisfying `p` (the `for i, task` loop in
`apply_action` keeps overwriting the index on every match). -/
def lastMatchIdx {α : Type} (p : α → Bool) : List α → Option Nat
  | [] => none
  | x :: xs =>
    match lastMatchIdx p xs with
    | some i => some (i + 1)
    | none => if p x then some 0 else none

/-- Simultaneous swap of two (valid) positions of a list, modelling the
Python tuple swap. -/
def swapAt {α : Type} (s : List α) (i j : Nat) : List α :=
  match s.get? i, s.get? j with
  | some x, some y => (s.set i y).set j x
  | _, _ => s

/-- Embeds `apply_action`: `ADD_TASK` appends iff no task with the
action's `task_id` exists; `REMOVE_TASK` filters by id and reports
whether the list shrank; `SWAP_TASKS` (with truthy ids) swaps the last
matching positions when both ids are found; anything else is a no-op
returning `False`. -/
def apply_action (a : GAction) (s : List STask) : List STask × Bool :=
  if a.actype = some "ADD_TASK" then
    if s.any fun t => t.id == a.task_id then (s, false)
    else (s ++ [{ id := a.task_id, ty := a.task_type, priority := a.priority }], true)
  else if a.actype = some "REMOVE_TASK" then
    let s2 := s.filter fun t => !(t.id == a.task_id)
    (s2, decide (s2.length < s.length))
  else if a.actype = some "SWAP_TASKS" then
    if truthyStr a.task_id && truthyStr a.swap_with_task_id then
      match lastMatchIdx (fun t => t.id == a.task_id) s,
            lastMatchIdx (fun t => t.id == a.swap_with_task_id) s with
      | some i, some j => (swapAt s i j, true)
      | _, _ => (s, false)
    else (s, false)
  else (s, false)

/-- Loop body of `for action in trigger_data.get("actions", [])`: apply
each action in turn, accumulating the any-change flag. -/
def applyActionsGo : List GAction → List STask → Bool → List STask × Bool
  | [], s, ch => (s, ch)
  | a :: rest, s, ch =>
    let r := apply_action a s
    applyActionsGo rest r.1 (ch || r.2)

/-- Folds a trigger's action list over the schedule, accumulating the
any-change flag (`schedule_changed`). -/
def applyActions (acts : List GAction) (s : List STask) : List STask × Bool :=
  applyActionsGo acts s false

/-- Trigger document: id, optional quorum, condition, actions. -/
structure Trigger where
  id : String
  quorum : Option GQuorum := none
  condition : GCondition := {}
  actions : List GAction := []
deriving DecidableEq

/-- Condition dispatch of the governor cycle on `condition["type"]`;
unknown types leave `condition_met = False`. -/
def evalCondition (now : Int) (nodes : List (String × GNode)) (c : GCondition) :
    Option Bool :=
  if c.condType = some "time_based" then evaluate_condition_time_based now c
  else if c.condType = some "swarm_metric_agg" then
    evaluate_condition_swarm_metric_agg now c nodes
  else some false

/-- Outcome of the trigger loop of one governor cycle: the in-memory
schedule, the `schedule_changed` flag, and whether a write+commit was
performed; `aborted` marks an exception escaping from a condition
evaluator (caught by the cycle's outer handler). -/
inductive CycleOut where
  | done : List STask → Bool → Bool → CycleOut
  | aborted : List STask → Bool → Bool → CycleOut
deriving DecidableEq

/-- Schedule carried by a cycle outcome. -/
def cycleSchedule (o : CycleOut) : List STask :=
  match o with
  | CycleOut.done s _ _ => s
  | CycleOut.aborted s _ _ => s

/-- Final `schedule_changed` flag of a cycle outcome. -/
def cycleChanged (o : CycleOut) : Bool :=
  match o with
  | CycleOut.done _ ch _ => ch
  | CycleOut.aborted _ ch _ => ch

/-- Whether the cycle wrote and committed `schedule.json` at least once. -/
def cycleCommitted (o : CycleOut) : Bool :=
  match o with
  | CycleOut.done _ _ com => com
  | CycleOut.aborted _ _ com => com

/-- Embeds the trigger loop of the governor `main` cycle: for each
trigger, the quorum gate comes first (`continue` also skips that
iteration's write-and-commit check); then the condition is evaluated (an
exception aborts the cycle); if the condition holds the actions are
applied; finally, whenever the cumulative `schedule_changed` flag is
set, the schedule is written and committed. -/
def runTriggers (now : Int) (nodes : List (String × GNode)) (health : Nat × Nat) :
    List Trigger → List STask → Bool → Bool → CycleOut
  | [], s, ch, com => CycleOut.done s ch com
  | tr :: rest, s, ch, com =>
    if check_quorum tr.quorum health.1 health.2 = false then
      runTriggers now nodes health rest s ch com
    else
      match evalCondition now nodes tr.condition with
      | none => CycleOut.aborted s ch com
      | some condMet =>
        let r := if condMet then applyActions tr.actions s else (s, false)
        let ch2 := ch || r.2
        runTriggers now nodes health rest r.1 ch2 (com || ch2)

/-! Predicates characterising the code's IDLE-scan behaviour (used to
state the claims about `run_idle_state`). -/

/-- Free-or-orphaned test the IDLE scan actually applies to one task:
unassigned, or assigned with a parseable `task_heartbeat` older than
`TASK_EXPIRATION`. -/
def isFreeOrOrphan (now : Int) (asg : List (String × AssignmentRec)) (t : Task) : Bool :=
  match alookup asg t.id with
  | none => true
  | some a =>
    match a.task_heartbeat with
    | TField.value h => decide (now - h > taskExpiration)
    | _ => false

/-- A task lets the IDLE scan continue past it iff it is assigned with a
parseable `task_heartbeat` at most `TASK_EXPIRATION` old. -/
def blocksScan (now : Int) (asg : List (String × AssignmentRec)) (t : Task) : Bool :=
  match alookup asg t.id with
  | none => false
  | some a =>
    match a.task_heartbeat with
    | TField.value h => decide (now - h ≤ taskExpiration)
    | _ => false

/-- Modelled from the spec (claim C1 wording): a task is a
candidate-for-claim iff it is unassigned or its assignment is an orphan
by `now > lease_expires_at`, its `required_role` (if any) is in the
node's role set, and its `required_region` (if any) equals the node's
region. -/
def claimCandidateSpec (now : Int) (asg : List (String × AssignmentRec))
    (roles : List String) (region : Option String) (t : Task) : Bool :=
  (match alookup asg t.id with
   | none => true
   | some a =>
     match a.lease_expires_at with
     | TField.value e => decide (now > e)
     | _ => false) &&
  (match t.required_role with
   | none => true
   | some r => roles.contains r) &&
  (match t.required_region with
   | none => true
   | some g => region == some g)

/-! Spec-side predicates for the healer claim (claim C4 wording). -/

/-- Modelled from the spec (claim C4 wording): alive set with the
15-minute `node_timeout` (`now − last_seen ≤ 900`). -/
def specAliveIds (now : Int) (roster : List RosterNode) : List String :=
  roster.filterMap fun n =>
    match n.last_seen with
    | TField.value t => if now - t ≤ 900 then some n.id else none
    | _ => none

/-- Modelled from the spec (claim C4 wording): owner-dead, i.e. the
assignment's `node_id` is not in the 15-minute alive set. -/
def specOwnerDead (now : Int) (roster : List RosterNode) (a : AssignmentRec) : Bool :=
  match a.node_id with
  | some nid => !(specAliveIds now roster).contains nid
  | none => true

/-- Modelled from the spec (claim C4 wording): lease-expired, i.e.
`now > lease_expires_at + healer_grace`. -/
def specLeaseExpiredGrace (now grace : Int) (a : AssignmentRec) : Bool :=
  match a.lease_expires_at with
  | TField.value e => decide (now > e + grace)
  | _ => false

/-! Spec-side evaluator for the metric-aggregation claim (claim C7
wording). -/

/-- Modelled from the spec (claim C7 wording): the five declared
comparison operators. -/
def specCompareFive (op : String) (x y : ℚ) : Option Bool :=
  if op = "gt" then some (decide (x > y))
  else if op = "lt" then some (decide (x < y))
  else if op = "eq" then some (decide (x = y))
  else if op = "ge" then some (decide (x ≥ y))
  else if op = "le" then some (decide (x ≤ y))
  else none

/-- Modelled from the spec (claim C7 wording): the five declared
aggregators over the alive nodes' metric values. -/
def specAggregateFive (agg : String) (thr : ℚ) (ms : List ℚ) : Option ℚ :=
  if agg = "average" then some (ms.sum / (ms.length : ℚ))
  else if agg = "sum" then some ms.sum
  else if agg = "count_above_threshold" then
    some (((ms.countP fun v => decide (v > thr)) : ℕ) : ℚ)
  else if agg = "max" then
    match ms with
    | [] => none
    | h :: t => some (t.foldl max h)
  else if agg = "min" then
    match ms with
    | [] => none
    | h :: t => some (t.foldl min h)
  else none

/-- Metric values of alive roster rows per the spec's liveness rule
(15 minutes), used by the spec-side evaluator. -/
def specAliveMetrics (now : Int) (metricName : String)
    (nodes : List (String × GNode)) : List ℚ :=
  nodes.filterMap fun p =>
    match p.2.last_seen with
    | TField.value t =>
      if now - t < governorAliveWindow then alookup p.2.metrics metricName else none
    | _ => none

/-- Modelled from the spec (claim C7 wording): aggregate the named
metric across alive nodes with the declared aggregator and compare the
aggregate to the threshold with the declared operator. -/
def specSwarmMetricAgg (now : Int) (cond : GCondition)
    (nodes : List (String × GNode)) : Option Bool :=
  match cond.metric, cond.aggregation, cond.threshold, cond.operator with
  | some m, some agg, some thr, some op =>
    match specAggregateFive agg thr (specAliveMetrics now m nodes) with
    | some a => specCompareFive op a thr
    | none => none
  | _, _, _, _ => none

/-- Aggregate value computed by the code's supported aggregators (the
count branch compares each value to the threshold with the declared
operator). -/
def aggValueFor (agg op : String) (thr : ℚ) (ms : List ℚ) : ℚ :=
  if agg = "average" then ms.sum / (ms.length : ℚ)
  else if agg = "sum" then ms.sum
  else (((ms.countP fun v => ((opCompare op).getD fun _ _ => false) v thr) : ℕ) : ℚ)

/-! Concrete fixtures used by counterexamples and witnesses. -/

/-- Task requiring the `media` role (fixture). -/
def tMediaC1 : Task :=
  { id := "t1", priority := some 1, required_role := some "media" }

/-- Assignment record purged as stale by the healer while alive and
holding an unexpired lease (fixture). -/
def recC4 : AssignmentRec :=
  { node_id := some "n1", task_heartbeat := TField.value 9300,
    lease_expires_at := TField.value 11000 }

/-- Roster with one node seen 100 seconds ago (fixture). -/
def rosterC4 : List RosterNode := [{ id := "n1", last_seen := TField.value 9900 }]

/-- Assignments document holding only `recC4` (fixture). -/
def asgC4 : List (String × AssignmentRec) := [("t1", recC4)]

/-- Schedule tasks `a` and `b` (fixture). -/
def aTaskC6 : STask := { id := some "a" }

/-- Schedule task `b` (fixture). -/
def bTaskC6 : STask := { id := some "b" }

/-- Swap action on tasks `a` and `b` (fixture). -/
def swapActC6 : GAction :=
  { actype := some "SWAP_TASKS", task_id := some "a", swap_with_task_id := some "b" }

/-- Trigger with an always-true time condition and a swap action
(fixture). -/
def trigSwapC6 : Trigger :=
  { id := "r1", condition := { condType := some "time_based" }, actions := [swapActC6] }

/-- Roster dict with one alive node whose `cpu_load` is 10 (fixture). -/
def nodesC7 : List (String × GNode) :=
  [("n1", { last_seen := TField.value 990, metrics := [("cpu_load", 10)] })]

/-- Condition asking for the `max` aggregator with operator `gt` and
threshold 5 (fixture). -/
def condMaxC7 : GCondition :=
  { condType := some "swarm_metric_agg", metric := some "cpu_load",
    aggregation := some "max", threshold := some 5, operator := some "gt" }

/-- Tasks with priorities 1, none, and equal priorities 5 (fixtures). -/
def tPrio1C10 : Task := { id := "p1", priority := some 1 }

/-- Task without a priority field (fixture). -/
def tNoneC10 : Task := { id := "pn" }

/-- First of two equal-priority tasks (fixture). -/
def tEqAC10 : Task := { id := "ea", priority := some 5 }

/-- Second of two equal-priority tasks (fixture). -/
def tEqBC10 : Task := { id := "eb", priority := some 5 }

/-! Helper lemmas. -/

theorem alookup_ainsert {α : Type} (m : List (String × α)) (k : String) (v : α) :
    alookup (ainsert m k v) k = some v := by
  induction m with
  | nil => simp [ainsert, alookup]
  | cons p rest ih =>
    obtain ⟨k₁, v₁⟩ := p
    by_cases h : k₁ = k
    · simp [ainsert, alookup, h]
    · simp [ainsert, alookup, h, ih]

/-- Claim C3: as stated the claim is false on the code. `extend_lease`
sets `lease_expires_at := now + duration` unconditionally, so renewing a
lease that expires at time 1800 with the permitted minimum duration of
60 seconds at time 0 moves the expiry backwards from 1800 to 60. -/
theorem c3_counterexample :
    (extend_lease { lease_expires_at := TField.value 1800 } 0 60).lease_expires_at
      = TField.value 60 ∧
    minLeaseDuration ≤ (60 : Int) ∧ (60 : Int) ≤ maxLeaseDuration ∧ (60 : Int) < 1800 := by
  refine ⟨rfl, ?_, ?_, ?_⟩ <;> decide

/-- Claim C3 (amended): `extend_lease` sets the new expiry to
`now + duration`; it never moves `lease_expires_at` backward provided
the old expiry is at most `now + duration` (which holds for renewals
performed before expiry with a duration at least the remaining lease
time, e.g. the normal renewal within the one-minute threshold). -/
theorem c3_extend_lease_monotone_if_due (a : AssignmentRec) (now duration old : Int)
    (_hold : a.lease_expires_at = TField.value old) (h : old ≤ now + duration) :
    ∃ e, (extend_lease a now duration).lease_expires_at = TField.value e ∧ old ≤ e :=
  ⟨now + duration, rfl, h⟩

/-- Witness for the amended claim C3 at a concrete renewal. -/
theorem c3_witness :
    ∃ e, (extend_lease { lease_expires_at := TField.value 100 } 90 60).lease_expires_at
      = TField.value e ∧ (100 : Int) ≤ e :=
  c3_extend_lease_monotone_if_due { lease_expires_at := TField.value 100 } 90 60 100 rfl
    (by decide)

/-- Claim C9: for every grace period, `is_lease_expired` returns `True`
when `lease_expires_at` is `None`, empty, or not parseable as a
timestamp — such assignments are treated as already expired instead of
raising. -/
theorem c9_invalid_lease_is_expired (now grace : Int) (l : LeaseArg)
    (h : l = LeaseArg.noneArg ∨ l = LeaseArg.emptyStr ∨ l = LeaseArg.invalidStr) :
    is_lease_expired now l grace = true := by
  rcases h with h | h | h <;> subst h <;> rfl

/-- Witness for claim C9 at a concrete unparseable timestamp. -/
theorem c9_witness : is_lease_expired 5 LeaseArg.invalidStr 0 = true :=
  c9_invalid_lease_is_expired 5 0 LeaseArg.invalidStr (Or.inr (Or.inr rfl))

/-- Claim C2: as stated the claim is false on the code. The record
written by `_attempt_claim_legacy` carries `task_heartbeat = now` and no
`lease_expires_at` field at all (contrary to the claimed
`lease_expires_at = now + lease_duration`). -/
theorem c2_counterexample :
    attempt_claim_legacy 1000 "node-1" none { id := "t1" } [] "M assignments.json"
      = ClaimResult.finished true
          [("t1", { node_id := some "node-1", claimed_at := TField.value 1000,
                    task_heartbeat := TField.value 1000,
                    lease_expires_at := TField.missing,
                    status := some "claiming", region := none })] ∧
    (buildClaimRecord "node-1" 1000 none).lease_expires_at = TField.missing := by
  exact ⟨by decide, rfl⟩

/-- Claim C2 (amended): whenever `_attempt_claim_legacy` returns without
raising, either it failed without writing (the task was live-assigned),
or the assignments document it wrote maps the task id to exactly
`{node_id = self, claimed_at = now, task_heartbeat = now,
status = "claiming", region = geo}` — with no `lease_expires_at`
field. -/
theorem c2_claim_record_contents (now : Int) (nodeId : String) (geo : Option String)
    (task : Task) (asg : List (String × AssignmentRec)) (status : String)
    (success : Bool) (out : List (String × AssignmentRec))
    (h : attempt_claim_legacy now nodeId geo task asg status
          = ClaimResult.finished success out) :
    (success = false ∧ out = asg) ∨
    alookup out task.id = some
      { node_id := some nodeId, claimed_at := TField.value now,
        task_heartbeat := TField.value now, lease_expires_at := TField.missing,
        status := some "claiming", region := geo } := by
  unfold attempt_claim_legacy at h
  split at h
  · split at h
    · exact (ClaimResult.noConfusion h)
    · split at h
      · simp only [ClaimResult.finished.injEq] at h
        exact Or.inl ⟨h.1.symm, h.2.symm⟩
      · unfold claimWrite at h
        simp only [ClaimResult.finished.injEq] at h
        right
        rw [← h.2]
        exact alookup_ainsert asg task.id (buildClaimRecord nodeId now geo)
  · unfold claimWrite at h
    simp only [ClaimResult.finished.injEq] at h
    right
    rw [← h.2]
    exact alookup_ainsert asg task.id (buildClaimRecord nodeId now geo)

/-- Witness for the amended claim C2 at a concrete claim attempt. -/
theorem c2_witness :
    ((false = false ∧
        ([("t", buildClaimRecord "n" 1000 none)] : List (String × AssignmentRec)) = []) ∨
      alookup [("t", buildClaimRecord "n" 1000 none)] "t" = some
        { node_id := some "n", claimed_at := TField.value 1000,
          task_heartbeat := TField.value 1000, lease_expires_at := TField.missing,
          status := some "claiming", region := none }) :=
  c2_claim_record_contents 1000 "n" none { id := "t" } [] "" false
    [("t", buildClaimRecord "n" 1000 none)] (by decide)

/-- Claim C8: when the staged write of `assignments.json` is a no-op
against current HEAD (nothing of it shows in `git status --porcelain`),
`commit_and_push` commits nothing and returns `False`, the claim attempt
fails, and the node goes back to `IDLE` instead of `ACTIVE`. -/
theorem c8_nothing_to_commit (now : Int) (nodeId : String) (geo : Option String)
    (task : Task) (asg : List (String × AssignmentRec)) (status : String)
    (hs : strIn assignmentsFile status = false) :
    claimWrite now nodeId geo task asg status
      = ClaimResult.finished false (ainsert asg task.id (buildClaimRecord nodeId now geo)) ∧
    run_attempt_claim_state (claimWrite now nodeId geo task asg status)
      = NodeState.IDLE := by
  have hcp : commit_and_push [assignmentsFile] status = false := by
    simp [commit_and_push, hs]
  exact ⟨by simp [claimWrite, hcp], by simp [claimWrite, run_attempt_claim_state, hcp]⟩

/-- Witness for claim C8 at a concrete no-op write (empty porcelain
output). -/
theorem c8_witness :
    claimWrite 0 "n" none { id := "t" } []
        "" = ClaimResult.finished false
          (ainsert [] "t" (buildClaimRecord "n" 0 none)) ∧
    run_attempt_claim_state (claimWrite 0 "n" none { id := "t" } [] "")
      = NodeState.IDLE :=
  c8_nothing_to_commit 0 "n" none { id := "t" } [] "" (by decide)

theorem alist_key_inj {α : Type} {l : List (String × α)} (h : (l.map Prod.fst).Nodup)
    {p q : String × α} (hp : p ∈ l) (hq : q ∈ l) (hk : p.1 = q.1) : p = q := by
  induction l with
  | nil => cases hp
  | cons x rest ih =>
    simp only [List.map_cons, List.nodup_cons] at h
    rcases List.mem_cons.mp hp with hp1 | hp1
    · rcases List.mem_cons.mp hq with hq1 | hq1
      · rw [hp1, hq1]
      · exfalso
        apply h.1
        subst hp1
        rw [hk]
        exact List.mem_map_of_mem Prod.fst hq1
    · rcases List.mem_cons.mp hq with hq1 | hq1
      · exfalso
        apply h.1
        subst hq1
        rw [← hk]
        exact List.mem_map_of_mem Prod.fst hp1
      · exact ih h.2 hp1 hq1

theorem mem_detect_zombie (now : Int) (roster : List RosterNode)
    (asg : List (String × AssignmentRec)) (b : String) :
    b ∈ detect_zombie_assignments asg (get_alive_node_ids now roster) ↔
      ∃ q, q ∈ asg ∧ isZombieRec now roster q.2 = true ∧ q.1 = b := by
  unfold detect_zombie_assignments
  rw [List.mem_filterMap]
  constructor
  · rintro ⟨q, hq, hfq⟩
    refine ⟨q, hq, ?_⟩
    unfold isZombieRec
    rcases hn : q.2.node_id with _ | nid
    · rw [hn] at hfq
      cases hfq
    · rw [hn] at hfq
      by_cases h1 : nid = ""
      · simp [h1] at hfq
      · by_cases h2 : nid ∈ get_alive_node_ids now roster
        · simp [h1, h2] at hfq
        · simp [h1, h2] at hfq
          simp [h1, h2, hfq]
  · rintro ⟨q, hq, hz, hb⟩
    refine ⟨q, hq, ?_⟩
    unfold isZombieRec at hz
    rcases hn : q.2.node_id with _ | nid
    · rw [hn] at hz
      cases hz
    · rw [hn] at hz
      by_cases h1 : nid = ""
      · simp [h1] at hz
      · simp [h1] at hz
        simp [h1, hz, hb]

theorem mem_detect_stale (now : Int) (asg : List (String × AssignmentRec)) (b : String) :
    b ∈ detect_stale_assignments now asg ↔
      ∃ q, q ∈ asg ∧ isStaleRec now q.2 = true ∧ q.1 = b := by
  unfold detect_stale_assignments
  rw [List.mem_filterMap]
  constructor
  · rintro ⟨q, hq, hfq⟩
    refine ⟨q, hq, ?_⟩
    unfold isStaleRec
    rcases hn : q.2.task_heartbeat with _ | _ | h
    · rw [hn] at hfq
      cases hfq
    · rw [hn] at hfq
      cases hfq
    · rw [hn] at hfq
      by_cases hexp : now - h > healerStaleWindow
      · simp [hexp] at hfq
        simp [hexp, hfq]
      · simp [hexp] at hfq
  · rintro ⟨q, hq, hs, hb⟩
    refine ⟨q, hq, ?_⟩
    unfold isStaleRec at hs
    rcases hn : q.2.task_heartbeat with _ | _ | h
    · rw [hn] at hs
      cases hs
    · rw [hn] at hs
      cases hs
    · rw [hn] at hs
      simp only [decide_eq_true_eq] at hs
      simp [hs, hb]

/-- Claim C4: as stated the claim is false on the code. The healer's
liveness window is 300 seconds (5 minutes), not the claimed 15-minute
`node_timeout`, and its staleness test reads `task_heartbeat` (older
than 600 seconds), not `lease_expires_at + healer_grace`: at
`now = 10000` it purges an assignment whose owner was seen 100 seconds
ago (alive under the claimed rule) and whose lease expires at 11000 (in
the future, so not lease-expired for any nonnegative grace). -/
theorem c4_counterexample :
    healerCycle 10000 rosterC4 asgC4 = ([], true) ∧
    specOwnerDead 10000 rosterC4 recC4 = false ∧
    specLeaseExpiredGrace 10000 0 recC4 = false := by
  refine ⟨?_, ?_, ?_⟩ <;> decide

/-- Claim C4 (amended): every assignment purged by a healer cycle
satisfied, at that cycle's read time, zombie (truthy `node_id` outside
the 5-minute alive set) or stale (parseable `task_heartbeat` older than
600 seconds); assignments satisfying neither are never removed. -/
theorem c4_healer_purge_iff (now : Int) (roster : List RosterNode)
    (asg : List (String × AssignmentRec))
    (hkeys : (asg.map Prod.fst).Nodup) (p : String × AssignmentRec) (hp : p ∈ asg) :
    p ∈ (healerCycle now roster asg).1 ↔
      ¬(isZombieRec now roster p.2 = true ∨ isStaleRec now p.2 = true) := by
  have hz : p.1 ∈ detect_zombie_assignments asg (get_alive_node_ids now roster) ↔
      isZombieRec now roster p.2 = true := by
    rw [mem_detect_zombie]
    constructor
    · rintro ⟨q, hq, hzq, hb⟩
      have hqp : q = p := alist_key_inj hkeys hq hp hb
      rw [← hqp]
      exact hzq
    · intro hzp
      exact ⟨p, hp, hzp, rfl⟩
  have hst : p.1 ∈ detect_stale_assignments now asg ↔ isStaleRec now p.2 = true := by
    rw [mem_detect_stale]
    constructor
    · rintro ⟨q, hq, hsq, hb⟩
      have hqp : q = p := alist_key_inj hkeys hq hp hb
      rw [← hqp]
      exact hsq
    · intro hsp
      exact ⟨p, hp, hsp, rfl⟩
  unfold healerCycle heal_assignments
  rw [List.mem_filter]
  simp only [hp, true_and]
  rw [Bool.not_eq_true', Bool.or_eq_false_iff]
  simp only [List.contains_eq_any_beq, List.any_eq_false]
  constructor
  · rintro ⟨h1, h2⟩ hcon
    rcases hcon with hcase | hcase
    · exact absurd (by exact beq_self_eq_true p.1) (by simpa using h1 p.1 (hz.mpr hcase))
    · exact absurd (by exact beq_self_eq_true p.1) (by simpa using h2 p.1 (hst.mpr hcase))
  · intro hcon
    constructor
    · intro x hx
      simp only [beq_iff_eq]
      intro hxe
      apply hcon
      left
      apply hz.mp
      subst hxe
      exact hx
    · intro x hx
      simp only [beq_iff_eq]
      intro hxe
      apply hcon
      right
      apply hst.mp
      subst hxe
      exact hx

/-- Witness for the amended claim C4 at the concrete fixture. -/
theorem c4_witness :
    (("t1", recC4) ∈ (healerCycle 10000 rosterC4 asgC4).1 ↔
      ¬(isZombieRec 10000 rosterC4 recC4 = true ∨ isStaleRec 10000 recC4 = true)) :=
  c4_healer_purge_iff 10000 rosterC4 asgC4 (by decide) ("t1", recC4) (by decide)

theorem apply_action_false_eq (a : GAction) (s : List STask)
    (h : (apply_action a s).2 = false) : (apply_action a s).1 = s := by
  by_cases h1 : a.actype = some "ADD_TASK"
  · by_cases h2 : (s.any fun t => t.id == a.task_id) = true
    · simp [apply_action, h1, h2]
    · simp [apply_action, h1, h2] at h
  · by_cases h3 : a.actype = some "REMOVE_TASK"
    · simp only [apply_action, if_neg h1, if_pos h3] at h ⊢
      simp only [decide_eq_false_iff_not, not_lt] at h
      have hle := List.length_filter_le (fun t => !(t.id == a.task_id)) s
      exact List.filter_eq_self.mpr (List.filter_length_eq_length.mp (le_antisymm hle h))
    · by_cases h4 : a.actype = some "SWAP_TASKS"
      · by_cases h5 : (truthyStr a.task_id && truthyStr a.swap_with_task_id) = true
        · cases hi : lastMatchIdx (fun t => t.id == a.task_id) s with
          | none => simp [apply_action, h1, h3, h4, h5, hi]
          | some i =>
            cases hj : lastMatchIdx (fun t => t.id == a.swap_with_task_id) s with
            | none => simp [apply_action, h1, h3, h4, h5, hi, hj]
            | some j => simp [apply_action, h1, h3, h4, h5, hi, hj] at h
        · simp [apply_action, h1, h3, h4, h5]
      · simp [apply_action, h1, h3, h4]

theorem applyActionsGo_false (acts : List GAction) :
    ∀ (s : List STask) (ch : Bool),
    (applyActionsGo acts s ch).2 = false →
    (applyActionsGo acts s ch).1 = s ∧ ch = false := by
  induction acts with
  | nil =>
    intro s ch h
    simp only [applyActionsGo] at h
    exact ⟨rfl, h⟩
  | cons a rest ih =>
    intro s ch h
    simp only [applyActionsGo] at h ⊢
    obtain ⟨h1, h2⟩ := ih (apply_action a s).1 (ch || (apply_action a s).2) h
    have hch : ch = false := by
      cases ch
      · rfl
      · simp at h2
    have hact : (apply_action a s).2 = false := by
      rw [hch] at h2
      simpa using h2
    rw [h1, apply_action_false_eq a s hact]
    exact ⟨rfl, hch⟩

theorem runTriggers_cons_skip (now : Int) (nodes : List (String × GNode))
    (health : Nat × Nat) (tr : Trigger) (rest : List Trigger) (s : List STask)
    (ch com : Bool) (hq : check_quorum tr.quorum health.1 health.2 = false) :
    runTriggers now nodes health (tr :: rest) s ch com
      = runTriggers now nodes health rest s ch com := by
  rw [runTriggers, if_pos hq]

theorem runTriggers_cons_go (now : Int) (nodes : List (String × GNode))
    (health : Nat × Nat) (tr : Trigger) (rest : List Trigger) (s : List STask)
    (ch com : Bool) (hq : check_quorum tr.quorum health.1 health.2 = true) :
    runTriggers now nodes health (tr :: rest) s ch com
      = match evalCondition now nodes tr.condition with
        | none => CycleOut.aborted s ch com
        | some condMet =>
          let r := if condMet then applyActions tr.actions s else (s, false)
          let ch2 := ch || r.2
          runTriggers now nodes health rest r.1 ch2 (com || ch2) := by
  rw [runTriggers, if_neg (by simp [hq])]

theorem runTriggers_filter_quorum (now : Int) (nodes : List (String × GNode))
    (health : Nat × Nat) :
    ∀ (ts : List Trigger) (s : List STask) (ch com : Bool),
    runTriggers now nodes health
      (ts.filter fun tr => check_quorum tr.quorum health.1 health.2) s ch com
      = runTriggers now nodes health ts s ch com := by
  intro ts
  induction ts with
  | nil => intro s ch com; rfl
  | cons tr rest ih =>
    intro s ch com
    cases hq : check_quorum tr.quorum health.1 health.2 with
    | false =>
      rw [List.filter_cons_of_neg (by simp [hq]),
        runTriggers_cons_skip now nodes health tr rest s ch com hq]
      exact ih s ch com
    | true =>
      rw [List.filter_cons_of_pos (by simp [hq]),
        runTriggers_cons_go now nodes health tr
          (rest.filter fun tr => check_quorum tr.quorum health.1 health.2) s ch com hq,
        runTriggers_cons_go now nodes health tr rest s ch com hq]
      cases hev : evalCondition now nodes tr.condition with
      | none => rfl
      | some condMet => exact ih _ _ _

theorem runTriggers_unchanged (now : Int) (nodes : List (String × GNode))
    (health : Nat × Nat) :
    ∀ (ts : List Trigger) (s : List STask) (ch com : Bool),
    cycleChanged (runTriggers now nodes health ts s ch com) = false →
    cycleSchedule (runTriggers now nodes health ts s ch com) = s ∧
    cycleCommitted (runTriggers now nodes health ts s ch com) = com ∧ ch = false := by
  intro ts
  induction ts with
  | nil =>
    intro s ch com h
    simp only [runTriggers, cycleChanged] at h
    exact ⟨rfl, rfl, h⟩
  | cons tr rest ih =>
    intro s ch com h
    cases hq : check_quorum tr.quorum health.1 health.2 with
    | false =>
      rw [runTriggers_cons_skip now nodes health tr rest s ch com hq] at h ⊢
      exact ih s ch com h
    | true =>
      rw [runTriggers_cons_go now nodes health tr rest s ch com hq] at h ⊢
      cases hev : evalCondition now nodes tr.condition with
      | none =>
        rw [hev] at h
        exact ⟨rfl, rfl, h⟩
      | some condMet =>
        rw [hev] at h
        dsimp only at h ⊢
        obtain ⟨h1, h2, h3⟩ := ih _ _ _ h
        have hch : ch = false := by
          cases ch
          · rfl
          · simp at h3
        have hr2 : (if condMet then applyActions tr.actions s else (s, false)).2 = false := by
          rw [hch] at h3
          simpa using h3
        have hr1 : (if condMet then applyActions tr.actions s else (s, false)).1 = s := by
          cases condMet
          · simp
          · simp only [if_true] at hr2 ⊢
            exact (applyActionsGo_false tr.actions s false hr2).1
        rw [h1, h2, hr1, hch, hr2]
        simp

/-- Claim C5: for every governor cycle, a trigger whose quorum
requirement is not met contributes nothing (running the loop on the
quorum-satisfying triggers only gives the same outcome), and if no
trigger's actions changed the schedule, the schedule is returned exactly
as loaded and nothing is written or committed. -/
theorem c5_quorum_gate_and_frame :
    (∀ (now : Int) (nodes : List (String × GNode)) (health : Nat × Nat)
       (ts : List Trigger) (s : List STask) (ch com : Bool),
       runTriggers now nodes health
         (ts.filter fun tr => check_quorum tr.quorum health.1 health.2) s ch com
         = runTriggers now nodes health ts s ch com) ∧
    (∀ (now : Int) (nodes : List (String × GNode)) (health : Nat × Nat)
       (ts : List Trigger) (s : List STask),
       cycleChanged (runTriggers now nodes health ts s false false) = false →
       cycleSchedule (runTriggers now nodes health ts s false false) = s ∧
       cycleCommitted (runTriggers now nodes health ts s false false) = false) := by
  constructor
  · intro now nodes health ts s ch com
    exact runTriggers_filter_quorum now nodes health ts s ch com
  · intro now nodes health ts s h
    obtain ⟨h1, h2, _⟩ := runTriggers_unchanged now nodes health ts s false false h
    exact ⟨h1, h2⟩

/-- Witness for claim C5 at a concrete cycle. -/
theorem c5_witness :
    (runTriggers 0 [] (1, 1)
        ([trigSwapC6].filter fun tr => check_quorum tr.quorum 1 1) [aTaskC6] false false
      = runTriggers 0 [] (1, 1) [trigSwapC6] [aTaskC6] false false) ∧
    (cycleSchedule (runTriggers 0 [] (1, 1) [] [aTaskC6] false false) = [aTaskC6] ∧
     cycleCommitted (runTriggers 0 [] (1, 1) [] [aTaskC6] false false) = false) :=
  ⟨c5_quorum_gate_and_frame.1 0 [] (1, 1) [trigSwapC6] [aTaskC6] false false,
   c5_quorum_gate_and_frame.2 0 [] (1, 1) [] [aTaskC6] (by decide)⟩

/-- Claim C6: as stated the claim is false on the code. A
`SWAP_TASKS` action is an involution, not idempotent: running the same
trigger (quorum-free, always-true time condition, one swap action)
twice over the schedule `[a, b]` yields `[a, b]` again, while running it
once yields `[b, a]`. -/
theorem c6_counterexample :
    cycleSchedule (runTriggers 0 [] (1, 1) [trigSwapC6]
        (cycleSchedule (runTriggers 0 [] (1, 1) [trigSwapC6] [aTaskC6, bTaskC6] false false))
        false false)
      ≠ cycleSchedule (runTriggers 0 [] (1, 1) [trigSwapC6] [aTaskC6, bTaskC6] false false) := by
  decide

theorem apply_action_add_exists (a : GAction) (u : List STask)
    (h : a.actype = some "ADD_TASK") (hex : (u.any fun t => t.id == a.task_id) = true) :
    (apply_action a u).1 = u := by
  simp [apply_action, h, hex]

/-- Claim C6 (amended): a single `ADD_TASK` or `REMOVE_TASK` action is
idempotent — applying the same action to its own output leaves the
schedule unchanged (`ADD_TASK` is guarded by the existence check);
idempotence of a whole rerun fails in general because of
`SWAP_TASKS`. -/
theorem c6_add_remove_idempotent (a : GAction) (s : List STask)
    (h : a.actype = some "ADD_TASK" ∨ a.actype = some "REMOVE_TASK") :
    (apply_action a (apply_action a s).1).1 = (apply_action a s).1 := by
  rcases h with h | h
  · by_cases hex : (s.any fun t => t.id == a.task_id) = true
    · have h0 : (apply_action a s).1 = s := apply_action_add_exists a s h hex
      rw [h0]
      exact apply_action_add_exists a s h hex
    · have h1 : (apply_action a s).1
          = s ++ [{ id := a.task_id, ty := a.task_type, priority := a.priority }] := by
        simp [apply_action, h, hex]
      refine apply_action_add_exists a _ h ?_
      rw [h1]
      simp
  · simp +decide [apply_action, h, List.filter_filter]

/-- Witness for the amended claim C6 at a concrete `ADD_TASK` action. -/
theorem c6_witness :
    (apply_action { actype := some "ADD_TASK", task_id := some "x" }
        (apply_action { actype := some "ADD_TASK", task_id := some "x" } []).1).1
      = (apply_action { actype := some "ADD_TASK", task_id := some "x" } []).1 :=
  c6_add_remove_idempotent { actype := some "ADD_TASK", task_id := some "x" } []
    (Or.inl rfl)

/-- Claim C7: as stated the claim is false on the code. The evaluator
has no `max`/`min` aggregator branch (the aggregate stays `None` and the
function returns `False`), and no `ge`/`le` operator branch: with one
alive node whose `cpu_load` is 10 and the condition (max, gt, 5) the
claimed comparison result is `10 > 5 = True` (as the spec-modelled
evaluator computes) but the code returns `False`. -/
theorem c7_counterexample :
    evaluate_condition_swarm_metric_agg 1000 condMaxC7 nodesC7 = some false ∧
    specSwarmMetricAgg 1000 condMaxC7 nodesC7 = some true := by
  constructor <;> decide

/-- Claim C7 (amended): restricted to the aggregators actually
implemented (`average`, `sum`, `count_above_threshold`) and the
operators actually implemented (`gt`, `lt`, `eq`), and given at least
one alive node carrying the metric, the evaluator returns the comparison
of the aggregate against the threshold with the declared operator (the
count aggregator uses the same operator both for counting and for the
final comparison); `max`/`min` and `ge`/`le` are not supported. -/
theorem c7_supported_agg_ops (now : Int) (nodes : List (String × GNode))
    (m agg op : String) (thr : ℚ) (ms : List ℚ)
    (hm : m ≠ "") (hthr : thr ≠ 0)
    (hagg : agg = "average" ∨ agg = "sum" ∨ agg = "count_above_threshold")
    (hop : op = "gt" ∨ op = "lt" ∨ op = "eq")
    (hms : aliveMetricsList now m nodes = Except.ok ms) (hne : ms ≠ []) :
    evaluate_condition_swarm_metric_agg now
      { condType := some "swarm_metric_agg", metric := some m, aggregation := some agg,
        threshold := some thr, operator := some op }
      nodes
      = some (((opCompare op).getD fun _ _ => false) (aggValueFor agg op thr ms) thr) := by
  have hagg0 : agg ≠ "" := by rcases hagg with h | h | h <;> subst h <;> decide
  have hop0 : op ≠ "" := by rcases hop with h | h | h <;> subst h <;> decide
  have hcmp : ∃ cmp, opCompare op = some cmp := by
    rcases hop with h | h | h <;> subst h <;> exact ⟨_, rfl⟩
  obtain ⟨cmp, hcmpe⟩ := hcmp
  have hmse : ms.isEmpty = false := by
    cases ms
    · exact absurd rfl hne
    · rfl
  rcases hagg with h | h | h <;> subst h <;>
    simp +decide [evaluate_condition_swarm_metric_agg, truthyStr, truthyQ, hm, hthr,
      hop0, hms, hmse, aggValueFor, hcmpe]

/-- Witness for the amended claim C7 at a concrete sum/gt condition. -/
theorem c7_witness :
    evaluate_condition_swarm_metric_agg 1000
      { condType := some "swarm_metric_agg", metric := some "cpu_load",
        aggregation := some "sum", threshold := some 5, operator := some "gt" }
      nodesC7
      = some (((opCompare "gt").getD fun _ _ => false) (aggValueFor "sum" "gt" 5 [10]) 5) :=
  c7_supported_agg_ops 1000 nodesC7 "cpu_load" "sum" "gt" 5 [10] (by decide) (by decide)
    (Or.inr (Or.inl rfl)) (Or.inl rfl) rfl (by decide)

theorem findCandidate_ok_some_iff (now : Int) (asg : List (String × AssignmentRec)) :
    ∀ (l : List Task) (t : Task),
    findCandidate now asg l = Except.ok (some t) ↔
      ∃ l1 l2, l = l1 ++ t :: l2 ∧ isFreeOrOrphan now asg t = true ∧
        ∀ u ∈ l1, blocksScan now asg u = true := by
  intro l
  induction l with
  | nil =>
    intro t
    constructor
    · intro h
      simp [findCandidate] at h
    · rintro ⟨l1, l2, hl, -, -⟩
      cases l1 <;> simp at hl
  | cons u rest ih =>
    intro t
    rcases ha : alookup asg u.id with _ | a
    · constructor
      · intro h
        simp only [findCandidate, ha, Except.ok.injEq, Option.some.injEq] at h
        subst h
        exact ⟨[], rest, rfl, by simp [isFreeOrOrphan, ha], by simp⟩
      · rintro ⟨l1, l2, hl, hfree, hblocks⟩
        cases l1 with
        | nil =>
          simp only [List.nil_append, List.cons.injEq] at hl
          obtain ⟨hl1, hl2⟩ := hl
          subst hl1
          simp [findCandidate, ha]
        | cons v l1t =>
          simp only [List.cons_append, List.cons.injEq] at hl
          have hbv := hblocks v (by simp)
          rw [← hl.1] at hbv
          simp [blocksScan, ha] at hbv
    · rcases hhb : a.task_heartbeat with _ | _ | hb
      · constructor
        · intro h
          simp [findCandidate, ha, hhb] at h
        · rintro ⟨l1, l2, hl, hfree, hblocks⟩
          exfalso
          cases l1 with
          | nil =>
            simp only [List.nil_append, List.cons.injEq] at hl
            rw [← hl.1] at hfree
            simp [isFreeOrOrphan, ha, hhb] at hfree
          | cons v l1t =>
            simp only [List.cons_append, List.cons.injEq] at hl
            have hbv := hblocks v (by simp)
            rw [← hl.1] at hbv
            simp [blocksScan, ha, hhb] at hbv
      · constructor
        · intro h
          simp [findCandidate, ha, hhb] at h
        · rintro ⟨l1, l2, hl, hfree, hblocks⟩
          exfalso
          cases l1 with
          | nil =>
            simp only [List.nil_append, List.cons.injEq] at hl
            rw [← hl.1] at hfree
            simp [isFreeOrOrphan, ha, hhb] at hfree
          | cons v l1t =>
            simp only [List.cons_append, List.cons.injEq] at hl
            have hbv := hblocks v (by simp)
            rw [← hl.1] at hbv
            simp [blocksScan, ha, hhb] at hbv
      · by_cases hexp : now - hb > taskExpiration
        · constructor
          · intro h
            simp only [findCandidate, ha, hhb, if_pos hexp, Except.ok.injEq,
              Option.some.injEq] at h
            subst h
            exact ⟨[], rest, rfl, by simp [isFreeOrOrphan, ha, hhb, hexp], by simp⟩
          · rintro ⟨l1, l2, hl, hfree, hblocks⟩
            cases l1 with
            | nil =>
              simp only [List.nil_append, List.cons.injEq] at hl
              obtain ⟨hl1, hl2⟩ := hl
              subst hl1
              simp [findCandidate, ha, hhb, hexp]
            | cons v l1t =>
              simp only [List.cons_append, List.cons.injEq] at hl
              have hbv := hblocks v (by simp)
              rw [← hl.1] at hbv
              simp only [blocksScan, ha, hhb, decide_eq_true_eq] at hbv
              omega
        · constructor
          · intro h
            simp only [findCandidate, ha, hhb, if_neg hexp] at h
            obtain ⟨l1, l2, hl, hfree, hblocks⟩ := (ih t).mp h
            refine ⟨u :: l1, l2, by simp [hl], hfree, ?_⟩
            intro v hv
            rcases List.mem_cons.mp hv with hv1 | hv1
            · subst hv1
              simp only [blocksScan, ha, hhb, decide_eq_true_eq]
              omega
            · exact hblocks v hv1
          · rintro ⟨l1, l2, hl, hfree, hblocks⟩
            cases l1 with
            | nil =>
              simp only [List.nil_append, List.cons.injEq] at hl
              rw [← hl.1] at hfree
              simp only [isFreeOrOrphan, ha, hhb, decide_eq_true_eq] at hfree
              exact absurd hfree hexp
            | cons v l1t =>
              simp only [List.cons_append, List.cons.injEq] at hl
              simp only [findCandidate, ha, hhb, if_neg hexp]
              refine (ih t).mpr ⟨l1t, l2, hl.2, hfree, ?_⟩
              intro w hw
              exact hblocks w (List.mem_cons_of_mem v hw)

/-- Claim C1: as stated the claim is false on the code. The IDLE scan of
`run_idle_state` consults neither `required_role` nor `required_region`
(and its orphan test reads `task_heartbeat`, not `lease_expires_at`): a
node whose role set is only `web` still picks the unassigned task that
requires role `media`, which the claim's candidate predicate rejects. -/
theorem c1_counterexample :
    runIdleSelect 0 [] [tMediaC1] = IdleOutcome.claimAttempt tMediaC1 ∧
    claimCandidateSpec 0 [] ["web"] none tMediaC1 = false := by
  constructor <;> decide

/-- Claim C1 (amended): in the Node's IDLE pass, with schedule tasks
iterated in ascending priority order (default 999, stable), the task
selected as `current_task` (with transition to `ATTEMPT_CLAIM`) is
exactly the first task that is unassigned or whose assignment's
`task_heartbeat` is older than `TASK_EXPIRATION` (90 s); every earlier
task was assigned with a fresh, parseable heartbeat; role and region
requirements are not consulted. -/
theorem c1_idle_candidate_characterisation (now : Int)
    (asg : List (String × AssignmentRec)) (tasks : List Task) (t : Task) :
    runIdleSelect now asg tasks = IdleOutcome.claimAttempt t ↔
      ∃ l1 l2, sortedTasks tasks = l1 ++ t :: l2 ∧ isFreeOrOrphan now asg t = true ∧
        ∀ u ∈ l1, blocksScan now asg u = true := by
  rw [← findCandidate_ok_some_iff now asg (sortedTasks tasks) t]
  unfold runIdleSelect
  rcases hf : findCandidate now asg (sortedTasks tasks) with e | o
  · simp
  · cases o with
    | none => simp
    | some t2 => simp [IdleOutcome.claimAttempt.injEq]

/-- Claim C10: a schedule task lacking a priority field is sorted with
effective priority 999 — in the sorted IDLE scan order it comes strictly
after every task whose effective priority is below 999 — and tasks of
equal effective priority keep their original schedule order (the sort is
stable). -/
theorem c10_priority_default_and_stability :
    (∀ (ts : List Task) (i j : Fin (sortedTasks ts).length),
       ((sortedTasks ts).get i).priority = none →
       effPriority ((sortedTasks ts).get j) < 999 →
       (j : Nat) < (i : Nat)) ∧
    (∀ (ts : List Task) (a b : Task), effPriority a = effPriority b →
       List.Sublist [a, b] ts → List.Sublist [a, b] (sortedTasks ts)) := by
  constructor
  · intro ts i j hnone hlt
    have hsorted : (sortedTasks ts).Sorted taskLE := List.sorted_insertionSort taskLE ts
    by_contra hcon
    push_neg at hcon
    have heffi : effPriority ((sortedTasks ts).get i) = 999 := by
      unfold effPriority
      rw [hnone]
      rfl
    rcases eq_or_lt_of_le hcon with heq | hlt2
    · have hij : i = j := Fin.ext heq
      rw [hij] at heffi
      rw [heffi] at hlt
      exact absurd hlt (lt_irrefl _)
    · have hle := hsorted.rel_get_of_lt hlt2
      unfold taskLE at hle
      rw [heffi] at hle
      exact absurd (lt_of_le_of_lt hle hlt) (lt_irrefl _)
  · intro ts a b hab hsub
    exact List.pair_sublist_insertionSort (le_of_eq hab) hsub

/-- Witness for claim C10 at concrete schedules: with tasks
`[priority 1, no priority]` the priority-less task is scanned second,
and a pair of equal-priority tasks keeps its order. -/
theorem c10_witness :
    ((0 : Nat) < 1) ∧
      List.Sublist [tEqAC10, tEqBC10] (sortedTasks [tEqAC10, tEqBC10]) := by
  constructor
  · exact c10_priority_default_and_stability.1 [tPrio1C10, tNoneC10]
      ⟨1, by decide⟩ ⟨0, by decide⟩ (by decide) (by decide)
  · exact c10_priority_default_and_stability.2 [tEqAC10, tEqBC10] tEqAC10 tEqBC10 rfl
      (List.Sublist.refl _)

end Shortlist
